import Mathlib

/-!
Shallow embedding of the bundle-size comparison script at src/compare.js of the
nextjs-bundle-analysis repository, together with theorems settling the frozen
claims about it.  JavaScript numbers are modelled as rationals, reports as
association lists from page path to statistics, and the `toFixed(2)` string
produced by the script as the pair of its numeric value and its decimal text.
-/

namespace BundleAnalysis

/-- Per-page bundle statistics: raw byte size and gzip byte size, as read from
the JSON report. -/
structure BundleStats where
  raw : Int
  gzip : Int
deriving DecidableEq

/-- A bundle report: mapping from page path to statistics, containing one
synthetic global entry under the key given by `globalKey`. -/
abbrev BundleReport := List (String × BundleStats)

/-- The key of the synthetic global-bundle entry. -/
def globalKey : String := "__global"

/-- The options the script reads from the package manifest.  Optional fields
(`budget`, `showDetails`, `minimumChangeThreshold`) are absent when the
corresponding key is missing, mirroring the `in` and `=== undefined` tests of
the script. -/
structure Options where
  budget : Option ℚ
  budgetPercentIncreaseRed : ℚ
  showDetails : Option Bool
  name : String
  skipCommentIfEmpty : Bool
  minimumChangeThreshold : Option ℚ
deriving DecidableEq

/-- SHOW_DETAILS: `options.showDetails === undefined ? true : options.showDetails`. -/
def showDetailsOpt (o : Options) : Bool := o.showDetails.getD true

/-- Truthiness of BUDGET as a JavaScript value: present and nonzero. -/
def budgetTruthy (o : Options) : Bool :=
  match o.budget with
  | none => false
  | some b => b != 0

/-- The numeric value of BUDGET where the script uses it in arithmetic. -/
def budgetValue (o : Options) : ℚ := o.budget.getD 0

/-- JavaScript object property lookup on a report: the value stored at a key. -/
def lookupStats (p : String) : BundleReport → Option BundleStats
  | [] => none
  | (q, s) :: rest => if q = p then some s else lookupStats p rest

/-- The effect of `delete bundle[k]`: the report without the entries keyed `k`. -/
def deleteKey (k : String) : BundleReport → BundleReport
  | [] => []
  | (q, s) :: rest => if q = k then deleteKey k rest else (q, s) :: deleteKey k rest

/-- The per-page diff record the script builds.  Fields the script leaves
undefined on some records (`rawDiff`, `gzipDiff` on new pages, `rawDiff` on the
global record) are stored as `0`/`false`, which is observationally equivalent:
the script only ever reads them under truthiness guards. -/
structure PageDiff where
  page : String
  raw : Int
  gzip : Int
  rawDiff : Int
  gzipDiff : Int
  increase : Bool
deriving DecidableEq

/-- The minimum-change-threshold test used for the global bundle and for
changed pages: no threshold configured, or `Math.abs(diff) > threshold`. -/
def passesThreshold (o : Options) (gzipDiff : Int) : Bool :=
  match o.minimumChangeThreshold with
  | none => true
  | some t => decide (t < |(gzipDiff : ℚ)|)

/-- The `globalBundleChanges` value computed at the top of the script: `false`
(here `none`) unless the global gzip delta is nonzero and passes the threshold
test. -/
def globalBundleChanges (o : Options) (globalBundleCurrent globalBundleBase : BundleStats) :
    Option PageDiff :=
  let globalGzipDiff := globalBundleCurrent.gzip - globalBundleBase.gzip
  if globalGzipDiff ≠ 0 ∧ passesThreshold o globalGzipDiff = true then
    some { page := "global"
           raw := globalBundleCurrent.raw
           gzip := globalBundleCurrent.gzip
           rawDiff := 0
           gzipDiff := globalGzipDiff
           increase := decide (0 < globalGzipDiff) }
  else none

/-- The classification loop over the current bundle: returns the pair
(changedPages, newPages), in iteration order.  A page absent from the base
report is new; a page whose gzip size differs and passes the threshold test is
changed; every other page is ignored. -/
def classifyPages (o : Options) (baseBundle : BundleReport) :
    BundleReport → List PageDiff × List PageDiff
  | [] => ([], [])
  | (page, currentStats) :: rest =>
    let prev := classifyPages o baseBundle rest
    match lookupStats page baseBundle with
    | none =>
      (prev.1,
       { page := page
         raw := currentStats.raw
         gzip := currentStats.gzip
         rawDiff := 0
         gzipDiff := 0
         increase := false } :: prev.2)
    | some baseStats =>
      if currentStats.gzip ≠ baseStats.gzip then
        if passesThreshold o (currentStats.gzip - baseStats.gzip) then
          ({ page := page
             raw := currentStats.raw
             gzip := currentStats.gzip
             rawDiff := currentStats.raw - baseStats.raw
             gzipDiff := currentStats.gzip - baseStats.gzip
             increase := decide (currentStats.gzip - baseStats.gzip ≠ 0) } :: prev.1,
           prev.2)
        else prev
      else prev

/-- The integer of hundredths produced by `x.toFixed(2)`: rounding to two
decimal places, half away from zero. -/
def toFixed2Int (x : ℚ) : Int :=
  if 0 ≤ x then (x * 100 + 1 / 2).floor else -((-x) * 100 + 1 / 2).floor

/-- The numeric value a later arithmetic use of `x.toFixed(2)` coerces the
string back to. -/
def toFixed2 (x : ℚ) : ℚ := (toFixed2Int x : ℚ) / 100

/-- The decimal text produced by `x.toFixed(2)`. -/
def toFixed2Str (x : ℚ) : String :=
  let n := toFixed2Int x
  let m := n.natAbs
  let frac := m % 100
  (if n < 0 then "-" else "") ++ toString (m / 100) ++ "." ++
    (if frac < 10 then "0" else "") ++ toString frac

/-- Decimal text of a rational, used where the script interpolates a plain
number into a string. -/
def ratStr (q : ℚ) : String :=
  if q.den = 1 then toString q.num else toString q.num ++ "/" ++ toString q.den

/-- Models the external `filesize` third-party library call (declared out of
scope by the specification): some injective text rendering of a byte count.
The script only concatenates its result into markdown. -/
def filesize (bytes : ℚ) : String := ratStr bytes ++ " B"

/-- Models the external `number-to-words` library composed with the script
local `titleCase`: the English word for a count, capitalised. -/
def titleCaseNumberWord (n : Nat) : String :=
  match n with
  | 1 => "One"
  | 2 => "Two"
  | 3 => "Three"
  | 4 => "Four"
  | 5 => "Five"
  | 6 => "Six"
  | 7 => "Seven"
  | 8 => "Eight"
  | 9 => "Nine"
  | 10 => "Ten"
  | _ => toString n

/-- The `firstLoadSize` computed per table row: page gzip plus current global
gzip when a current global bundle was passed, else `0`. -/
def firstLoadSize (globalBundleCurrent : Option BundleStats) (d : PageDiff) : ℚ :=
  match globalBundleCurrent with
  | some g => (d.gzip : ℚ) + (g.gzip : ℚ)
  | none => 0

/-- The `budgetPercentage` of a row: `(firstLoadSize / BUDGET) * 100`, kept as
a `toFixed(2)` string (here its pre-rounding value) when `showBudget`, else the
number `0` (here `none`). -/
def budgetPercentageCalc (o : Options) (globalBundleCurrent : Option BundleStats)
    (d : PageDiff) : Option ℚ :=
  if globalBundleCurrent.isSome && budgetTruthy o then
    some (firstLoadSize globalBundleCurrent d / budgetValue o * 100)
  else none

/-- The `previousBudgetPercentage` of a row, as the script computes it:
`((globalBundleCurrent.gzip + d.gzip + d.gzipDiff) / BUDGET) * 100`, kept as a
`toFixed(2)` string whenever a base global bundle was passed and the gzip diff
is truthy, else the number `0` (here `none`). -/
def previousBudgetPercentageCalc (o : Options) (globalBundleCurrent globalBundleBase : Option BundleStats)
    (d : PageDiff) : Option ℚ :=
  if globalBundleBase.isSome && (d.gzipDiff != 0) then
    some ((((globalBundleCurrent.map BundleStats.gzip).getD 0 + d.gzip + d.gzipDiff : Int) : ℚ) /
      budgetValue o * 100)
  else none

/-- The `budgetChange` of a row: the numeric coercion of the two percentage
strings subtracted, whenever `previousBudgetPercentage` is truthy (a string),
else the number `0` (here `none`).  The outer `toFixed(2)` of the script is
applied at the use sites, matching how the string is consumed. -/
def budgetChangeCalc (o : Options) (globalBundleCurrent globalBundleBase : Option BundleStats)
    (d : PageDiff) : Option ℚ :=
  match previousBudgetPercentageCalc o globalBundleCurrent globalBundleBase d with
  | none => none
  | some p =>
    some (toFixed2 p - ((budgetPercentageCalc o globalBundleCurrent d).map toFixed2).getD 0)

/-- The status-indicator renderer: yellow for a positive change under the red
threshold, red at or above it, empty within a hundredth of zero, green
otherwise. -/
def renderStatusIndicator (o : Options) (percentageChange : ℚ) : String :=
  if 0 < percentageChange ∧ percentageChange < o.budgetPercentIncreaseRed then "🟡 +"
  else if o.budgetPercentIncreaseRed ≤ percentageChange then "🔴 +"
  else if percentageChange < 1 / 100 ∧ -(1 / 100) < percentageChange then ""
  else "🟢 "

/-- The size cell of a row: the gzip size, followed by the size diff with a
status indicator when the diff is truthy and no budget diff is shown. -/
def renderSize (o : Options) (showBudgetDiff : Bool) (d : PageDiff) : String :=
  let gzd := d.gzipDiff
  let percentChange := (gzd : ℚ) / (d.gzip : ℚ) * 100
  " | `" ++ filesize (d.gzip : ℚ) ++ "`" ++
    (if gzd ≠ 0 ∧ showBudgetDiff = false then
      " _(" ++ renderStatusIndicator o percentChange ++ filesize (gzd : ℚ) ++ ")_"
    else "")

/-- The first-load cell of a row, rendered only when a current global bundle
was passed to the table. -/
def renderFirstLoad (globalBundleCurrent : Option BundleStats) (firstLoad : ℚ) : String :=
  match globalBundleCurrent with
  | none => ""
  | some _ => " | " ++ filesize firstLoad

/-- The budget cell of a row: empty unless `showBudget`; otherwise the budget
percentage, followed, when `previousBudgetPercentage` is truthy, by the budget
change, displayed as the literal text for changes within a hundredth of a
percent and as the rounded number otherwise. -/
def renderBudgetPercentage (o : Options) (showBudget : Bool) (budgetPercentage : ℚ)
    (previousBudgetPercentage : Option ℚ) (budgetChange : ℚ) : String :=
  if showBudget = false then ""
  else
    let bcNum := toFixed2 budgetChange
    let budgetChangeText := " _(" ++ renderStatusIndicator o bcNum ++
      (if bcNum < 1 / 100 ∧ -(1 / 100) < bcNum then "+/- <0.01%"
       else toFixed2Str budgetChange ++ "%") ++ ")_"
    " | " ++ toFixed2Str budgetPercentage ++ "%" ++
      (if previousBudgetPercentage.isSome then budgetChangeText else "")

/-- One row of the markdown table. -/
def markdownTableRow (o : Options) (globalBundleCurrent globalBundleBase : Option BundleStats)
    (d : PageDiff) : String :=
  let showBudget := globalBundleCurrent.isSome && budgetTruthy o
  let showBudgetDiff := budgetTruthy o && globalBundleBase.isSome
  "| `" ++ d.page ++ "`" ++
    renderSize o showBudgetDiff d ++
    renderFirstLoad globalBundleCurrent (firstLoadSize globalBundleCurrent d) ++
    renderBudgetPercentage o showBudget
      ((budgetPercentageCalc o globalBundleCurrent d).getD 0)
      (previousBudgetPercentageCalc o globalBundleCurrent globalBundleBase d)
      ((budgetChangeCalc o globalBundleCurrent globalBundleBase d).getD 0) ++
    " |\n"

/-- The `markdownTable` function: headers (with first-load and budget columns
only when the corresponding data was passed) followed by one row per diff
record. -/
def markdownTable (o : Options) (globalBundleCurrent globalBundleBase : Option BundleStats)
    (data : List PageDiff) : String :=
  let showBudget := globalBundleCurrent.isSome && budgetTruthy o
  "Page | Size (compressed) | " ++
    (if globalBundleCurrent.isSome then "First Load |" else "") ++
    (if showBudget then " % of Budget (`" ++ filesize (budgetValue o) ++ "`) |" else "") ++
    "\n" ++
  "|---|---|" ++
    (if globalBundleCurrent.isSome then "---|" else "") ++
    (if showBudget then "---|" else "") ++ "\n" ++
  String.join (data.map (markdownTableRow o globalBundleCurrent globalBundleBase))

/-- The headline the script starts its output with. -/
def reportHeader (name : String) : String :=
  "## 📦 Next.js Bundle Analysis for " ++ name ++
    "\n\nThis analysis was generated by the [Next.js Bundle Analysis action](https://github.com/hashicorp/nextjs-bundle-analysis). 🤖\n\n"

/-- The details block of the global-bundle section. -/
def globalDetails : String :=
  "\n<details>\n<summary>Details</summary>\n<p>The <strong>global bundle</strong> is the javascript bundle that loads alongside every page. It is in its own category because its impact is much higher - an increase to its size means that every page on your website loads slower, and a decrease means every page loads faster.</p>\n<p>Any third party scripts you have added directly to your app using the <code>&lt;script&gt;</code> tag are not accounted for in this analysis</p>\n<p>If you want further insight into what is behind the changes, give <a href=\x27https://www.npmjs.com/package/@next/bundle-analyzer\x27>@next/bundle-analyzer</a> a try!</p>\n</details>\n\n"

/-- The global-bundle-change section: headline, table, optional details. -/
def globalSection (o : Options) (g : PageDiff) : String :=
  "### " ++ (if g.increase then "⚠️" else "🎉") ++ "  Global Bundle Size " ++
    (if g.increase then "Increased" else "Decreased") ++ "\n  \n" ++
  markdownTable o none none [g] ++
  (if showDetailsOpt o then globalDetails else "")

/-- The new-pages section: headline with plural handling, then the table. -/
def newPagesSection (o : Options) (globalBundleCurrent : Option BundleStats)
    (newPages : List PageDiff) : String :=
  let plural := if newPages.length > 1 then "s" else ""
  "### New Page" ++ plural ++ " Added\n  \nThe following page" ++ plural ++ " " ++
    (if plural = "s" then "were" else "was") ++
    " added to the bundle from the code in this PR:\n\n" ++
  markdownTable o globalBundleCurrent none newPages ++ "\n"

/-- The details block of the changed-pages section; its last paragraph depends
on whether a budget and a current global bundle are available. -/
def changedDetails (o : Options) (globalBundleCurrent : Option BundleStats) : String :=
  "\n<details>\n<summary>Details</summary>\n<p>Only the gzipped size is provided here based on <a href=\x27https://twitter.com/slightlylate/status/1412851269211811845\x27>an expert tip</a>.</p>\n<p><strong>First Load</strong> is the size of the global bundle plus the bundle for the individual page. If a user were to show up to your website and land on a given page, the first load size represents the amount of javascript that user would need to download. If <code>next/link</code> is used, subsequent page loads would only need to download that page\x27s bundle (the number in the \"Size\" column), since the global bundle has already been downloaded.</p>\n<p>Any third party scripts you have added directly to your app using the <code>&lt;script&gt;</code> tag are not accounted for in this analysis</p>\n" ++
  (if budgetTruthy o && globalBundleCurrent.isSome then
    "<p>The \"Budget %\" column shows what percentage of your performance budget the <strong>First Load</strong> total takes up. For example, if your budget was 100kb, and a given page\x27s first load size was 10kb, it would be 10% of your budget. You can also see how much this has increased or decreased compared to the base branch of your PR. If this percentage has increased by " ++
      ratStr o.budgetPercentIncreaseRed ++
      "% or more, there will be a red status indicator applied, indicating that special attention should be given to this. If you see \"+/- <0.01%\" it means that there was a change in bundle size, but it is a trivial enough amount that it can be ignored.</p>"
  else
    "<p>Next to the size is how much the size has increased or decreased compared with the base branch of this PR. If this percentage has increased by " ++
      ratStr o.budgetPercentIncreaseRed ++
      "% or more, there will be a red status indicator applied, indicating that special attention should be given to this.") ++
  "\n</details>\n"

/-- The changed-pages section: headline with the count in words, table with
both global bundles, optional details. -/
def changedPagesSection (o : Options) (globalBundleCurrent globalBundleBase : BundleStats)
    (changedPages : List PageDiff) : String :=
  let plural := if changedPages.length > 1 then "s" else ""
  "### " ++ titleCaseNumberWord changedPages.length ++ " Page" ++ plural ++
    " Changed Size\n  \nThe following page" ++ plural ++
    " changed size from the code in this PR compared to its base branch:\n\n" ++
  markdownTable o (some globalBundleCurrent) (some globalBundleBase) changedPages ++
  (if showDetailsOpt o then changedDetails o (some globalBundleCurrent) else "")

/-- The sentinel text appended when nothing changed. -/
def noChangesSentinel : String :=
  "This PR introduced no changes to the JavaScript bundle! 🙌"

/-- The HTML comment marker tag appended so the calling automation can find the
comment again. -/
def markerTag (name : String) : String :=
  "<!-- __NEXTJS_BUNDLE_" ++ name ++ " -->"

/-- Assembly of the output text once both global bundles have been extracted
and removed: the sections in fixed order, the sentinel when nothing fired, the
marker tag, and the reset to the empty string when nothing changed and
`skipCommentIfEmpty` is set. -/
def renderOutput (o : Options) (globalBundleCurrent globalBundleBase : BundleStats)
    (currentBundle baseBundle : BundleReport) : String :=
  let gc := globalBundleChanges o globalBundleCurrent globalBundleBase
  let cls := classifyPages o baseBundle currentBundle
  let changedPages := cls.1
  let newPages := cls.2
  let hasNoChanges := newPages.isEmpty && changedPages.isEmpty && gc.isNone
  if hasNoChanges && o.skipCommentIfEmpty then ""
  else
    reportHeader o.name ++
    (match gc with
     | some g => globalSection o g
     | none => "") ++
    (if newPages.isEmpty then "" else newPagesSection o (some globalBundleCurrent) newPages) ++
    (if changedPages.isEmpty then ""
     else changedPagesSection o globalBundleCurrent globalBundleBase changedPages) ++
    (if hasNoChanges then noChangesSentinel else "") ++
    markerTag o.name

/-- The whole comparison given the two loaded reports: extract the global
entries (the script dereferences both unconditionally, so a missing global
entry crashes it, modelled as `none`), delete them, classify, render. -/
def run (o : Options) (currentBundle baseBundle : BundleReport) : Option String :=
  match lookupStats globalKey currentBundle, lookupStats globalKey baseBundle with
  | some gCur, some gBase =>
    some (renderOutput o gCur gBase (deleteKey globalKey currentBundle)
      (deleteKey globalKey baseBundle))
  | _, _ => none

/-- The output the script produces when there are no changes at all and the
comment is not skipped: header, sentinel, marker. -/
def noChangesOutput (o : Options) : String :=
  reportHeader o.name ++ noChangesSentinel ++ markerTag o.name

/-- What the script externalises: the console output and the trimmed file
content. -/
structure ProgramResult where
  consoleOutput : String
  fileContent : String
deriving DecidableEq

/-- The whole program including report loading: `require` of a missing or
unparsable report throws, terminating the process with no output, modelled as
`Except.error`; a report without a global entry crashes the unconditional
dereference at the top of the script, also before any output. -/
def program (o : Options) (currentFile baseFile : Option BundleReport) :
    Except String ProgramResult :=
  match currentFile with
  | none => Except.error ("Cannot find module: current bundle analysis report")
  | some cur =>
    match baseFile with
    | none => Except.error ("Cannot find module: base bundle analysis report")
    | some base =>
      match run o cur base with
      | none => Except.error ("TypeError: cannot read properties of undefined")
      | some out => Except.ok { consoleOutput := out, fileContent := out.trim }

/-- Modelled from the claim wording, for comparison with the script: the
prior-period budget percentage as claim C1 states it, the base-branch first
load (base global gzip plus base page gzip) over the budget, times 100, rounded
to two decimals. -/
def specPriorBudgetPercentage (budget : ℚ) (globalBundleBase : BundleStats)
    (basePageGzip : Int) : ℚ :=
  toFixed2 (((globalBundleBase.gzip + basePageGzip : Int) : ℚ) / budget * 100)

/-- Example options with a budget of 100 bytes and a red threshold of 2
percent, details disabled. -/
def exOptsBudget : Options :=
  { budget := some 100, budgetPercentIncreaseRed := 2, showDetails := some false,
    name := "pkg", skipCommentIfEmpty := false, minimumChangeThreshold := none }

/-- Example options with no budget and no threshold, details disabled. -/
def exOptsPlain : Options :=
  { budget := none, budgetPercentIncreaseRed := 2, showDetails := some false,
    name := "pkg", skipCommentIfEmpty := false, minimumChangeThreshold := none }

/-- Example options with `skipCommentIfEmpty` set. -/
def exOptsSkip : Options :=
  { budget := none, budgetPercentIncreaseRed := 2, showDetails := some false,
    name := "pkg", skipCommentIfEmpty := true, minimumChangeThreshold := none }

/-- Example current report: global gzip 20, page gzip 30. -/
def exCurReport : BundleReport := [(globalKey, ⟨0, 20⟩), ("a", ⟨0, 30⟩)]

/-- Example base report: global gzip 10, page gzip 20. -/
def exBaseReport : BundleReport := [(globalKey, ⟨0, 10⟩), ("a", ⟨0, 20⟩)]

/-- The diff record the classification produces for page `a` of `exCurReport`
against `exBaseReport`. -/
def exChangedDiff : PageDiff :=
  { page := "a", raw := 0, gzip := 30, rawDiff := 0, gzipDiff := 10, increase := true }

/-- Example report used on both sides when nothing changes. -/
def exEqualReport : BundleReport := [(globalKey, ⟨10, 50⟩), ("a", ⟨5, 5⟩)]

/-- Example current report whose pages match `exGlobalChangedBase` but whose
global entry differs. -/
def exGlobalChangedCur : BundleReport := [(globalKey, ⟨10, 100⟩), ("a", ⟨5, 5⟩)]

/-- Example base report for `exGlobalChangedCur`. -/
def exGlobalChangedBase : BundleReport := [(globalKey, ⟨10, 50⟩), ("a", ⟨5, 5⟩)]

/-- The page path used by the small examples. -/
def pageA : String := "a"

/-- A page path present only in a base report. -/
def pageB : String := "b"

/-- Example current report where page `a` differs from the base only in raw
size. -/
def exRawOnlyCur : BundleReport := [("a", ⟨1, 5⟩)]

/-- Example base report where page `a` differs from the current only in raw
size. -/
def exRawOnlyBase : BundleReport := [("a", ⟨2, 5⟩)]

/-- Example base report containing a page `b` that the current report lacks. -/
def exBaseWithB : BundleReport :=
  [(globalKey, ⟨10, 50⟩), ("a", ⟨5, 5⟩), ("b", ⟨1, 1⟩)]

/-! Helper lemmas about lookups, deletion and the classification loop. -/

theorem lookupStats_deleteKey_ne {k p : String} (h : p ≠ k) :
    ∀ r : BundleReport, lookupStats p (deleteKey k r) = lookupStats p r
  | [] => rfl
  | (q, s) :: rest => by
    by_cases hq : q = k
    · subst hq
      have hqp : ¬q = p := fun hh => h hh.symm
      simp only [deleteKey, if_pos rfl, lookupStats, if_neg hqp]
      exact lookupStats_deleteKey_ne h rest
    · simp only [deleteKey, if_neg hq, lookupStats]
      by_cases hqp : q = p
      · simp [hqp]
      · simp only [if_neg hqp]
        exact lookupStats_deleteKey_ne h rest

theorem mem_of_mem_deleteKey {k : String} :
    ∀ {r : BundleReport} {q : String} {s : BundleStats},
      (q, s) ∈ deleteKey k r → (q, s) ∈ r
  | [], _, _, h => absurd h (List.not_mem_nil _)
  | (q0, s0) :: rest, q, s, h => by
    by_cases hq : q0 = k
    · rw [deleteKey, if_pos hq] at h
      exact List.mem_cons_of_mem _ (mem_of_mem_deleteKey h)
    · rw [deleteKey, if_neg hq] at h
      rcases List.mem_cons.mp h with h | h
      · exact h ▸ List.mem_cons_self _ _
      · exact List.mem_cons_of_mem _ (mem_of_mem_deleteKey h)

theorem ne_of_mem_deleteKey {k : String} :
    ∀ {r : BundleReport} {q : String} {s : BundleStats},
      (q, s) ∈ deleteKey k r → q ≠ k
  | [], _, _, h => absurd h (List.not_mem_nil _)
  | (q0, s0) :: rest, q, s, h => by
    by_cases hq : q0 = k
    · rw [deleteKey, if_pos hq] at h
      exact ne_of_mem_deleteKey h
    · rw [deleteKey, if_neg hq] at h
      rcases List.mem_cons.mp h with h | h
      · rcases Prod.mk.injEq .. ▸ h with ⟨h1, _⟩
        exact h1 ▸ hq
      · exact ne_of_mem_deleteKey h

theorem lookupStats_eq_some_of_mem :
    ∀ {r : BundleReport} {p : String} {c : BundleStats},
      (r.map Prod.fst).Nodup → (p, c) ∈ r → lookupStats p r = some c
  | [], _, _, _, hm => absurd hm (List.not_mem_nil _)
  | (q, s) :: rest, p, c, hnd, hm => by
    rw [List.map_cons, List.nodup_cons] at hnd
    rcases List.mem_cons.mp hm with h | h
    · have h1 : p = q := congrArg Prod.fst h
      have h2 : c = s := congrArg Prod.snd h
      rw [lookupStats, if_pos h1.symm, h2]
    · have hq : ¬q = p := by
        intro hqp
        apply hnd.1
        rw [hqp]
        exact List.mem_map.mpr ⟨(p, c), h, rfl⟩
      rw [lookupStats, if_neg hq]
      exact lookupStats_eq_some_of_mem hnd.2 h

theorem not_mem_of_lookupStats_none {p : String} :
    ∀ {r : BundleReport}, lookupStats p r = none → ∀ c, (p, c) ∉ r
  | [], _, c, hm => absurd hm (List.not_mem_nil _)
  | (q, s) :: rest, h, c, hm => by
    rw [lookupStats] at h
    by_cases hq : q = p
    · rw [if_pos hq] at h
      exact Option.noConfusion h
    · rw [if_neg hq] at h
      rcases List.mem_cons.mp hm with hh | hh
      · exact hq (congrArg Prod.fst hh).symm
      · exact not_mem_of_lookupStats_none h c hh

theorem mem_changedPages {o : Options} {base : BundleReport} :
    ∀ {cur : BundleReport} {d : PageDiff}, d ∈ (classifyPages o base cur).1 →
      ∃ c b : BundleStats, (d.page, c) ∈ cur ∧ lookupStats d.page base = some b ∧
        c.gzip ≠ b.gzip ∧ passesThreshold o (c.gzip - b.gzip) = true ∧
        d.raw = c.raw ∧ d.gzip = c.gzip ∧ d.rawDiff = c.raw - b.raw ∧
        d.gzipDiff = c.gzip - b.gzip ∧ d.increase = decide (c.gzip - b.gzip ≠ 0)
  | [], d, hd => absurd hd (List.not_mem_nil _)
  | (page, cs) :: rest, d, hd => by
    rcases hb : lookupStats page base with _ | bs
    · simp only [classifyPages, hb] at hd
      obtain ⟨c, b, hmem, hrest⟩ := mem_changedPages hd
      exact ⟨c, b, List.mem_cons_of_mem _ hmem, hrest⟩
    · simp only [classifyPages, hb] at hd
      by_cases hgz : cs.gzip ≠ bs.gzip
      · rw [if_pos hgz] at hd
        by_cases hth : passesThreshold o (cs.gzip - bs.gzip)
        · rw [if_pos hth] at hd
          rcases List.mem_cons.mp hd with h | h
          · subst h
            exact ⟨cs, bs, List.mem_cons_self _ _, hb, hgz, hth, rfl, rfl, rfl, rfl, rfl⟩
          · obtain ⟨c, b, hmem, hrest⟩ := mem_changedPages h
            exact ⟨c, b, List.mem_cons_of_mem _ hmem, hrest⟩
        · rw [if_neg hth] at hd
          obtain ⟨c, b, hmem, hrest⟩ := mem_changedPages hd
          exact ⟨c, b, List.mem_cons_of_mem _ hmem, hrest⟩
      · rw [if_neg hgz] at hd
        obtain ⟨c, b, hmem, hrest⟩ := mem_changedPages hd
        exact ⟨c, b, List.mem_cons_of_mem _ hmem, hrest⟩

theorem mem_newPages {o : Options} {base : BundleReport} :
    ∀ {cur : BundleReport} {d : PageDiff}, d ∈ (classifyPages o base cur).2 →
      ∃ c : BundleStats, (d.page, c) ∈ cur ∧ lookupStats d.page base = none ∧
        d.raw = c.raw ∧ d.gzip = c.gzip ∧ d.rawDiff = 0 ∧ d.gzipDiff = 0 ∧
        d.increase = false
  | [], d, hd => absurd hd (List.not_mem_nil _)
  | (page, cs) :: rest, d, hd => by
    rcases hb : lookupStats page base with _ | bs
    · simp only [classifyPages, hb] at hd
      rcases List.mem_cons.mp hd with h | h
      · subst h
        exact ⟨cs, List.mem_cons_self _ _, hb, rfl, rfl, rfl, rfl, rfl⟩
      · obtain ⟨c, hmem, hrest⟩ := mem_newPages h
        exact ⟨c, List.mem_cons_of_mem _ hmem, hrest⟩
    · simp only [classifyPages, hb] at hd
      by_cases hgz : cs.gzip ≠ bs.gzip
      · rw [if_pos hgz] at hd
        by_cases hth : passesThreshold o (cs.gzip - bs.gzip)
        · rw [if_pos hth] at hd
          obtain ⟨c, hmem, hrest⟩ := mem_newPages hd
          exact ⟨c, List.mem_cons_of_mem _ hmem, hrest⟩
        · rw [if_neg hth] at hd
          obtain ⟨c, hmem, hrest⟩ := mem_newPages hd
          exact ⟨c, List.mem_cons_of_mem _ hmem, hrest⟩
      · rw [if_neg hgz] at hd
        obtain ⟨c, hmem, hrest⟩ := mem_newPages hd
        exact ⟨c, List.mem_cons_of_mem _ hmem, hrest⟩

theorem classifyPages_eq_nil {o : Options} {base : BundleReport} :
    ∀ {cur : BundleReport},
      (∀ p c, (p, c) ∈ cur → ∃ b, lookupStats p base = some b ∧ b.gzip = c.gzip) →
      classifyPages o base cur = ([], [])
  | [], _ => rfl
  | (page, cs) :: rest, h => by
    obtain ⟨b, hb, hgz⟩ := h page cs (List.mem_cons_self _ _)
    have hrest : classifyPages o base rest = ([], []) :=
      classifyPages_eq_nil (fun p c hm => h p c (List.mem_cons_of_mem _ hm))
    simp only [classifyPages, hb, hrest, if_neg (fun hne : cs.gzip ≠ b.gzip => hne hgz.symm)]

theorem classifyPages_congr_base {o : Options} {base1 base2 : BundleReport} :
    ∀ {cur : BundleReport},
      (∀ q s, (q, s) ∈ cur → lookupStats q base1 = lookupStats q base2) →
      classifyPages o base1 cur = classifyPages o base2 cur
  | [], _ => rfl
  | (page, cs) :: rest, h => by
    have hpage := h page cs (List.mem_cons_self _ _)
    have hrest : classifyPages o base1 rest = classifyPages o base2 rest :=
      classifyPages_congr_base (fun q s hm => h q s (List.mem_cons_of_mem _ hm))
    simp only [classifyPages, hpage, hrest]

theorem run_noChanges (o : Options) (cur base : BundleReport) (gCur gBase : BundleStats)
    (hgc : lookupStats globalKey cur = some gCur)
    (hgb : lookupStats globalKey base = some gBase)
    (hnd : ((deleteKey globalKey cur).map Prod.fst).Nodup)
    (hpages : deleteKey globalKey cur = deleteKey globalKey base)
    (hglob : globalBundleChanges o gCur gBase = none) :
    run o cur base = some (if o.skipCommentIfEmpty then "" else noChangesOutput o) := by
  unfold run
  rw [hgc, hgb]
  have hcls : classifyPages o (deleteKey globalKey base) (deleteKey globalKey cur) =
      ([], []) := by
    rw [← hpages]
    exact classifyPages_eq_nil (fun p c hm => ⟨c, lookupStats_eq_some_of_mem hnd hm, rfl⟩)
  simp only [renderOutput, hcls, hglob, List.isEmpty_nil, Option.isNone_none,
    Bool.and_self, Bool.true_and, Bool.and_true, eq_self_iff_true, if_true]
  by_cases hskip : o.skipCommentIfEmpty
  · rw [if_pos hskip, if_pos hskip]
  · rw [if_neg hskip, if_neg hskip]
    simp only [noChangesOutput, String.append_empty]

/-! Claim theorems. -/

/-- Claim C4: a global bundle change is flagged if and only if the global gzip
delta is nonzero and either no minimumChangeThreshold is configured or the
absolute delta strictly exceeds the threshold; with a threshold configured the
change is suppressed whenever the absolute delta is at most the threshold. -/
theorem claim4_global_change_flag (o : Options) (gCur gBase : BundleStats) :
    (globalBundleChanges o gCur gBase).isSome = true ↔
      gCur.gzip - gBase.gzip ≠ 0 ∧
        (o.minimumChangeThreshold = none ∨
          ∃ t, o.minimumChangeThreshold = some t ∧
            t < |((gCur.gzip - gBase.gzip : Int) : ℚ)|) := by
  simp only [globalBundleChanges]
  split_ifs with h
  · simp only [Option.isSome_some, true_iff]
    refine ⟨h.1, ?_⟩
    have hth := h.2
    unfold passesThreshold at hth
    cases hmt : o.minimumChangeThreshold with
    | none => exact Or.inl rfl
    | some t =>
      rw [hmt] at hth
      exact Or.inr ⟨t, rfl, of_decide_eq_true hth⟩
  · constructor
    · intro hh
      exact absurd hh (by decide)
    · intro hc
      exfalso
      apply h
      refine ⟨hc.1, ?_⟩
      unfold passesThreshold
      rcases hc.2 with hnone | ⟨t, ht, hlt⟩
      · rw [hnone]
      · rw [ht]
        exact decide_eq_true hlt

/-- Claim C5: with a positive red threshold, the status indicator is red if
and only if the percent delta is at or above the threshold, yellow if and only
if it is strictly between zero and the threshold, and neutral or green if and
only if it is at most zero. -/
theorem claim5_status_indicator (o : Options) (pc : ℚ)
    (hred : 0 < o.budgetPercentIncreaseRed) :
    (renderStatusIndicator o pc = "🔴 +" ↔ o.budgetPercentIncreaseRed ≤ pc) ∧
    (renderStatusIndicator o pc = "🟡 +" ↔ 0 < pc ∧ pc < o.budgetPercentIncreaseRed) ∧
    ((renderStatusIndicator o pc = "" ∨ renderStatusIndicator o pc = "🟢 ") ↔ pc ≤ 0) := by
  unfold renderStatusIndicator
  split_ifs with h1 h2 h3
  · exact ⟨iff_of_false (by decide) (not_le.mpr h1.2),
      iff_of_true rfl h1,
      iff_of_false (by decide) (not_le.mpr h1.1)⟩
  · exact ⟨iff_of_true rfl h2,
      iff_of_false (by decide) h1,
      iff_of_false (by decide) (not_le.mpr (lt_of_lt_of_le hred h2))⟩
  · have hple : pc ≤ 0 := by
      by_contra hc
      push_neg at hc
      exact h1 ⟨hc, lt_of_not_le h2⟩
    exact ⟨iff_of_false (by decide) h2,
      iff_of_false (by decide) h1,
      iff_of_true (Or.inl rfl) hple⟩
  · have hple : pc ≤ 0 := by
      by_contra hc
      push_neg at hc
      exact h1 ⟨hc, lt_of_not_le h2⟩
    exact ⟨iff_of_false (by decide) h2,
      iff_of_false (by decide) h1,
      iff_of_true (Or.inr rfl) hple⟩

/-- Witness for C5 at a concrete positive threshold and delta. -/
theorem claim5_witness :
    (renderStatusIndicator exOptsPlain 5 = "🔴 +" ↔
      exOptsPlain.budgetPercentIncreaseRed ≤ 5) ∧
    (renderStatusIndicator exOptsPlain 5 = "🟡 +" ↔
      0 < (5 : ℚ) ∧ (5 : ℚ) < exOptsPlain.budgetPercentIncreaseRed) ∧
    ((renderStatusIndicator exOptsPlain 5 = "" ∨
      renderStatusIndicator exOptsPlain 5 = "🟢 ") ↔ (5 : ℚ) ≤ 0) :=
  claim5_status_indicator exOptsPlain 5 (by decide)

/-- Claim C9: a missing or unparsable input report makes the program fail with
a load error, producing no result. -/
theorem claim9_missing_report_fatal (o : Options)
    (currentFile baseFile : Option BundleReport)
    (h : currentFile = none ∨ baseFile = none) :
    ∃ e, program o currentFile baseFile = Except.error e ∧
      ∀ r, program o currentFile baseFile ≠ Except.ok r := by
  rcases h with h | h
  · subst h
    exact ⟨_, rfl, fun r hr => Except.noConfusion hr⟩
  · subst h
    cases currentFile with
    | none => exact ⟨_, rfl, fun r hr => Except.noConfusion hr⟩
    | some cur => exact ⟨_, rfl, fun r hr => Except.noConfusion hr⟩

/-- Witness for C9 with both reports missing. -/
theorem claim9_witness :
    ∃ e, program exOptsPlain none none = Except.error e ∧
      ∀ r, program exOptsPlain none none ≠ Except.ok r :=
  claim9_missing_report_fatal exOptsPlain none none (Or.inl rfl)

/-- Claim C10: every changed-page diff record has a nonzero gzip delta and its
increase field set, even when the page shrank, while the global bundle change
record has its increase field set exactly when the global gzip delta is
positive. -/
theorem claim10_increase_flag (o : Options) (cur base : BundleReport)
    (gCur gBase : BundleStats) :
    (∀ d ∈ (classifyPages o base cur).1, d.gzipDiff ≠ 0 ∧ d.increase = true) ∧
    (∀ g, globalBundleChanges o gCur gBase = some g →
      (g.increase = true ↔ 0 < gCur.gzip - gBase.gzip)) := by
  constructor
  · intro d hd
    obtain ⟨c, b, _, _, hne, _, _, _, _, hdiff, hinc⟩ := mem_changedPages hd
    have hz : c.gzip - b.gzip ≠ 0 := sub_ne_zero_of_ne hne
    rw [hdiff, hinc]
    exact ⟨hz, decide_eq_true hz⟩
  · intro g hg
    simp only [globalBundleChanges] at hg
    split_ifs at hg with h
    injection hg with hg2
    subst hg2
    exact decide_eq_true_iff

/-- Claim C6: a page present in both reports with identical gzip size is never
classified as changed or new, even when its raw size differs, and the global
entry never appears in the per-page classification. -/
theorem claim6_identical_gzip_excluded (o : Options) (cur base : BundleReport)
    (p : String) (c b : BundleStats)
    (hnd : (cur.map Prod.fst).Nodup) (hc : (p, c) ∈ cur)
    (hb : lookupStats p base = some b) (hgz : c.gzip = b.gzip) :
    (∀ d ∈ (classifyPages o base cur).1, d.page ≠ p) ∧
    (∀ d ∈ (classifyPages o base cur).2, d.page ≠ p) ∧
    (∀ d ∈ (classifyPages o (deleteKey globalKey base) (deleteKey globalKey cur)).1,
      d.page ≠ globalKey) ∧
    (∀ d ∈ (classifyPages o (deleteKey globalKey base) (deleteKey globalKey cur)).2,
      d.page ≠ globalKey) := by
  refine ⟨?_, ?_, ?_, ?_⟩
  · intro d hd hdp
    obtain ⟨c2, b2, hmem, hlk, hne, _, _, _, _, _, _⟩ := mem_changedPages hd
    rw [hdp] at hmem hlk
    have e1 := lookupStats_eq_some_of_mem hnd hmem
    have e2 := lookupStats_eq_some_of_mem hnd hc
    rw [e1] at e2
    injection e2 with e2
    rw [hb] at hlk
    injection hlk with hlk
    rw [e2, ← hlk] at hne
    exact hne hgz
  · intro d hd hdp
    obtain ⟨c2, hmem, hlk, _⟩ := mem_newPages hd
    rw [hdp] at hlk
    rw [hb] at hlk
    exact Option.noConfusion hlk
  · intro d hd
    obtain ⟨c2, b2, hmem, _⟩ := mem_changedPages hd
    exact ne_of_mem_deleteKey hmem
  · intro d hd
    obtain ⟨c2, hmem, _⟩ := mem_newPages hd
    exact ne_of_mem_deleteKey hmem

/-- Witness for C6: page `a` keeps the same gzip size while its raw size
changes, so the classification produces nothing. -/
theorem claim6_witness :
    (∀ d ∈ (classifyPages exOptsPlain exRawOnlyBase exRawOnlyCur).1, d.page ≠ pageA) ∧
    (∀ d ∈ (classifyPages exOptsPlain exRawOnlyBase exRawOnlyCur).2, d.page ≠ pageA) ∧
    (∀ d ∈ (classifyPages exOptsPlain (deleteKey globalKey exRawOnlyBase)
        (deleteKey globalKey exRawOnlyCur)).1, d.page ≠ globalKey) ∧
    (∀ d ∈ (classifyPages exOptsPlain (deleteKey globalKey exRawOnlyBase)
        (deleteKey globalKey exRawOnlyCur)).2, d.page ≠ globalKey) :=
  claim6_identical_gzip_excluded exOptsPlain exRawOnlyCur exRawOnlyBase pageA ⟨1, 5⟩ ⟨2, 5⟩
    (by decide) (by decide) (by decide) rfl

/-- Claim C7: a page absent from the current report is never classified, and
removing such a page from the base report leaves the whole output unchanged. -/
theorem claim7_removed_page_silent (o : Options) (cur base : BundleReport) (p : String)
    (hp : lookupStats p cur = none) (hpg : p ≠ globalKey) :
    (∀ d ∈ (classifyPages o base cur).1, d.page ≠ p) ∧
    (∀ d ∈ (classifyPages o base cur).2, d.page ≠ p) ∧
    run o cur (deleteKey p base) = run o cur base := by
  refine ⟨?_, ?_, ?_⟩
  · intro d hd hdp
    obtain ⟨c2, b2, hmem, _⟩ := mem_changedPages hd
    exact not_mem_of_lookupStats_none hp c2 (hdp ▸ hmem)
  · intro d hd hdp
    obtain ⟨c2, hmem, _⟩ := mem_newPages hd
    exact not_mem_of_lookupStats_none hp c2 (hdp ▸ hmem)
  · unfold run
    rw [lookupStats_deleteKey_ne (fun h => hpg h.symm)]
    cases lookupStats globalKey cur with
    | none => rfl
    | some gCur =>
      cases lookupStats globalKey base with
      | none => rfl
      | some gBase =>
        have hcls : classifyPages o (deleteKey globalKey (deleteKey p base))
            (deleteKey globalKey cur) =
            classifyPages o (deleteKey globalKey base) (deleteKey globalKey cur) := by
          apply classifyPages_congr_base
          intro q s hm
          have hqg : q ≠ globalKey := ne_of_mem_deleteKey hm
          have hqp : q ≠ p := by
            intro hqp2
            exact not_mem_of_lookupStats_none hp s (hqp2 ▸ mem_of_mem_deleteKey hm)
          rw [lookupStats_deleteKey_ne hqg, lookupStats_deleteKey_ne hqp,
            lookupStats_deleteKey_ne hqg]
        simp only [renderOutput, hcls]

/-- Witness for C7: page `b` exists only in the base report and its removal
does not affect the output. -/
theorem claim7_witness :
    (∀ d ∈ (classifyPages exOptsPlain exBaseWithB exEqualReport).1, d.page ≠ pageB) ∧
    (∀ d ∈ (classifyPages exOptsPlain exBaseWithB exEqualReport).2, d.page ≠ pageB) ∧
    run exOptsPlain exEqualReport (deleteKey pageB exBaseWithB) =
      run exOptsPlain exEqualReport exBaseWithB :=
  claim7_removed_page_silent exOptsPlain exEqualReport exBaseWithB pageB
    (by decide) (by decide)

/-- Claim C2: in the budget column of a changed-page row (budget shown, prior
percentage present), the negligible-change text is rendered exactly when the
absolute value of the rounded budget-percentage delta is strictly below a
hundredth, and the delta is rendered as a percentage number otherwise. -/
theorem claim2_negligible_budget_delta (o : Options) (bp p bc : ℚ)
    (hbc : toFixed2 bc = bc) :
    renderBudgetPercentage o true bp (some p) bc =
      " | " ++ toFixed2Str bp ++ "%" ++
        (" _(" ++ renderStatusIndicator o bc ++
          (if |bc| < 1 / 100 then "+/- <0.01%" else toFixed2Str bc ++ "%") ++ ")_") := by
  have hiff : (bc < 1 / 100 ∧ -(1 / 100) < bc) ↔ |bc| < 1 / 100 := by
    rw [abs_lt]
    exact and_comm
  simp only [renderBudgetPercentage, hbc]
  rw [if_neg (by decide : ¬(true = false))]
  have hs : (some p).isSome = true := rfl
  rw [if_pos hs]
  by_cases habs : |bc| < 1 / 100
  · rw [if_pos (hiff.mpr habs), if_pos habs]
  · rw [if_neg (fun hh => habs (hiff.mp hh)), if_neg habs]

/-- Witness for C2 at a concrete rounded delta. -/
theorem claim2_witness :
    renderBudgetPercentage exOptsPlain true 7 (some 3) 5 =
      " | " ++ toFixed2Str 7 ++ "%" ++
        (" _(" ++ renderStatusIndicator exOptsPlain 5 ++
          (if |(5 : ℚ)| < 1 / 100 then "+/- <0.01%" else toFixed2Str 5 ++ "%") ++ ")_") :=
  claim2_negligible_budget_delta exOptsPlain 7 3 5 (by with_unfolding_all decide)

set_option maxRecDepth 16000 in
/-- Counterexample to claim C3 as stated: the two reports agree on every page
once the global entry is disregarded, yet the output is neither the no-changes
text nor empty, because the global entries differ. -/
theorem claim3_counterexample :
    deleteKey globalKey exGlobalChangedCur = deleteKey globalKey exGlobalChangedBase ∧
    run exOptsPlain exGlobalChangedCur exGlobalChangedBase ≠
      some (noChangesOutput exOptsPlain) ∧
    run exOptsPlain exGlobalChangedCur exGlobalChangedBase ≠ some ("") := by
  refine ⟨rfl, ?_, ?_⟩ <;> with_unfolding_all decide

/-- Claim C3 as amended: when the reports agree on every page outside the
global entry and additionally no global bundle change is flagged, the output is
the no-changes text (or the empty string when skipCommentIfEmpty is set). -/
theorem claim3_amended (o : Options) (cur base : BundleReport) (gCur gBase : BundleStats)
    (hgc : lookupStats globalKey cur = some gCur)
    (hgb : lookupStats globalKey base = some gBase)
    (hnd : ((deleteKey globalKey cur).map Prod.fst).Nodup)
    (hpages : deleteKey globalKey cur = deleteKey globalKey base)
    (hglob : globalBundleChanges o gCur gBase = none) :
    run o cur base = some (if o.skipCommentIfEmpty then "" else noChangesOutput o) :=
  run_noChanges o cur base gCur gBase hgc hgb hnd hpages hglob

/-- Witness for the amended C3 on two equal reports. -/
theorem claim3_amended_witness :
    run exOptsPlain exEqualReport exEqualReport =
      some (if exOptsPlain.skipCommentIfEmpty then "" else noChangesOutput exOptsPlain) :=
  claim3_amended exOptsPlain exEqualReport exEqualReport ⟨10, 50⟩ ⟨10, 50⟩
    (by decide) (by decide) (by decide) rfl (by decide)

set_option maxRecDepth 8000 in
/-- Counterexample to claim C1 as stated: for the changed page of
`exCurReport` against `exBaseReport` under a budget of 100 bytes, the script
computes a prior-period budget percentage of 60 (current global gzip 20 plus
current page gzip 30 plus the gzip diff 10) and reports a delta of 10 (prior
minus current), while the claim prescribes a prior percentage of 30 (base
global gzip 10 plus base page gzip 20 over the budget) and a delta of current
minus prior. -/
theorem claim1_counterexample :
    (classifyPages exOptsBudget (deleteKey globalKey exBaseReport)
      (deleteKey globalKey exCurReport)).1 = [exChangedDiff] ∧
    Option.map toFixed2 (previousBudgetPercentageCalc exOptsBudget
      (some ⟨0, 20⟩) (some ⟨0, 10⟩) exChangedDiff) = some 60 ∧
    specPriorBudgetPercentage 100 ⟨0, 10⟩ 20 = 30 ∧
    (60 : ℚ) ≠ 30 ∧
    Option.map toFixed2 (budgetPercentageCalc exOptsBudget (some ⟨0, 20⟩) exChangedDiff) =
      some 50 ∧
    budgetChangeCalc exOptsBudget (some ⟨0, 20⟩) (some ⟨0, 10⟩) exChangedDiff = some 10 ∧
    (50 - 30 : ℚ) ≠ 10 ∧ (50 - 60 : ℚ) ≠ 10 := by
  with_unfolding_all decide

/-- Claim C1 as amended: for every changed page, the prior-period budget
percentage the script computes is the current global gzip plus the current
page gzip plus the page gzip diff, over the budget, times 100, rounded to two
decimals, and the reported delta is the prior percentage minus the current
one. -/
theorem claim1_amended (o : Options) (cur base : BundleReport) (gCur gBase : BundleStats)
    (d : PageDiff) (hd : d ∈ (classifyPages o base cur).1) :
    ∃ c b : BundleStats, (d.page, c) ∈ cur ∧ lookupStats d.page base = some b ∧
      Option.map toFixed2 (previousBudgetPercentageCalc o (some gCur) (some gBase) d) =
        some (toFixed2 (((gCur.gzip + c.gzip + (c.gzip - b.gzip) : Int) : ℚ) /
          budgetValue o * 100)) ∧
      budgetChangeCalc o (some gCur) (some gBase) d =
        some (toFixed2 (((gCur.gzip + c.gzip + (c.gzip - b.gzip) : Int) : ℚ) /
            budgetValue o * 100) -
          ((budgetPercentageCalc o (some gCur) d).map toFixed2).getD 0) := by
  obtain ⟨c, b, hmem, hlk, hne, hth, hraw, hgz, hrd, hdiff, hinc⟩ := mem_changedPages hd
  have hbne : (d.gzipDiff != 0) = true := by
    rw [hdiff]
    exact bne_iff_ne.mpr (sub_ne_zero_of_ne hne)
  have hcond : ((some gBase : Option BundleStats).isSome && (d.gzipDiff != 0)) = true := by
    simp [hbne]
  have hprev : previousBudgetPercentageCalc o (some gCur) (some gBase) d =
      some ((((gCur.gzip + c.gzip + (c.gzip - b.gzip) : Int) : ℚ)) / budgetValue o * 100) := by
    unfold previousBudgetPercentageCalc
    rw [if_pos hcond, hgz, hdiff]
    rfl
  refine ⟨c, b, hmem, hlk, ?_, ?_⟩
  · rw [hprev]
    rfl
  · simp only [budgetChangeCalc, hprev]

/-- Witness for the amended C1 at the concrete changed page of the examples. -/
theorem claim1_amended_witness : ∃ c b : BundleStats,
    (exChangedDiff.page, c) ∈ deleteKey globalKey exCurReport ∧
    lookupStats exChangedDiff.page (deleteKey globalKey exBaseReport) = some b ∧
    Option.map toFixed2 (previousBudgetPercentageCalc exOptsBudget
      (some ⟨0, 20⟩) (some ⟨0, 10⟩) exChangedDiff) =
      some (toFixed2 ((((⟨0, 20⟩ : BundleStats).gzip + c.gzip + (c.gzip - b.gzip) : Int) : ℚ) /
        budgetValue exOptsBudget * 100)) ∧
    budgetChangeCalc exOptsBudget (some ⟨0, 20⟩) (some ⟨0, 10⟩) exChangedDiff =
      some (toFixed2 ((((⟨0, 20⟩ : BundleStats).gzip + c.gzip + (c.gzip - b.gzip) : Int) : ℚ) /
          budgetValue exOptsBudget * 100) -
        ((budgetPercentageCalc exOptsBudget (some ⟨0, 20⟩) exChangedDiff).map toFixed2).getD 0) :=
  claim1_amended exOptsBudget (deleteKey globalKey exCurReport)
    (deleteKey globalKey exBaseReport) ⟨0, 20⟩ ⟨0, 10⟩ exChangedDiff
    (by with_unfolding_all decide)

set_option maxRecDepth 8000 in
/-- Counterexample to claim C8 as stated: with skipCommentIfEmpty set and no
changes, the produced output is the empty string, which does not end with the
(nonempty) marker tag. -/
theorem claim8_counterexample :
    run exOptsSkip exEqualReport exEqualReport = some ("") ∧
    markerTag (exOptsSkip.name) ≠ "" ∧
    ("" : String).endsWith (markerTag (exOptsSkip.name)) = false := by
  refine ⟨?_, ?_, ?_⟩ <;> with_unfolding_all decide

/-- Claim C8 as amended: every produced output either is the empty string
(which happens only with skipCommentIfEmpty set) or ends with the marker tag,
and the written file content is the trimmed output. -/
theorem claim8_amended (o : Options) (cur base : BundleReport) (out : String)
    (h : run o cur base = some out) :
    ((out = "" ∧ o.skipCommentIfEmpty = true) ∨ ∃ s, out = s ++ markerTag o.name) ∧
    program o (some cur) (some base) =
      Except.ok { consoleOutput := out, fileContent := out.trim } := by
  have h0 : run o cur base = some out := h
  constructor
  · unfold run at h
    rcases hgc : lookupStats globalKey cur with _ | gCur
    · rw [hgc] at h
      simp at h
    · rcases hgb : lookupStats globalKey base with _ | gBase
      · rw [hgc, hgb] at h
        simp at h
      · rw [hgc, hgb] at h
        simp only [Option.some.injEq] at h
        subst h
        simp only [renderOutput]
        split_ifs with hcond
        · exact Or.inl ⟨rfl, (Bool.and_eq_true .. ▸ hcond).2⟩
        all_goals exact Or.inr ⟨_, rfl⟩
  · simp only [program, h0]

/-- Witness for the amended C8 on the no-changes output. -/
theorem claim8_amended_witness :
    ((noChangesOutput exOptsPlain = "" ∧ exOptsPlain.skipCommentIfEmpty = true) ∨
      ∃ s, noChangesOutput exOptsPlain = s ++ markerTag (exOptsPlain.name)) ∧
    program exOptsPlain (some exEqualReport) (some exEqualReport) =
      Except.ok { consoleOutput := noChangesOutput exOptsPlain,
                  fileContent := (noChangesOutput exOptsPlain).trim } :=
  claim8_amended exOptsPlain exEqualReport exEqualReport (noChangesOutput exOptsPlain)
    ((run_noChanges exOptsPlain exEqualReport exEqualReport ⟨10, 50⟩ ⟨10, 50⟩
      (by decide) (by decide) (by decide) rfl (by decide)).trans rfl)

end BundleAnalysis
